import Mathlib

/-
Verification of the scanner core of this repository: the port scanner
(src/port_scanner.py) and the network scanner (src/network_scanner.py).

Embedding conventions:
* Python integers are `Int`; port numbers and octets keep their Python types.
* Network effects are abstracted into oracles: a per-port open/closed oracle
  `Int → Bool` for `scan_port`, a per-address liveness oracle `IPv4 → Bool`
  for `_ping_host`, and `IPv4 → Option String` oracles for the best-effort
  hardware-address (`_get_mac_address`, which returns `None` on any failure)
  and hostname (`socket.gethostbyaddr`, which raises on failure) lookups.
* Concurrency: the thread pool submits one task per candidate and collects
  results with `as_completed`, i.e. in an arbitrary completion order.  The
  completion order is modelled as an explicit list parameter `order`; a real
  execution corresponds to any `order` that is a permutation of the submitted
  candidate list, which the theorems take as a hypothesis.
* Python's `list.sort()` is modelled by `List.insertionSort` with the sort
  key's `≤` relation: on the distinct keys produced here any comparison sort
  yields the same, uniquely determined sorted list.
-/

/-! ### Python `range(s, e + 1)` over `Int` -/

/-- Helper for `intRange`: the ascending list `[s, s+1, ..., s+n-1]`. -/
def intRangeAux (s : Int) : Nat → List Int
  | 0 => []
  | n + 1 => s :: intRangeAux (s + 1) n

/-- Python `list(range(s, e + 1))`: the ascending list of integers from `s`
to `e` inclusive (empty when `e < s`).  Used for the `port_list` of
`scan_port_range` (src/port_scanner.py line 96). -/
def intRange (s e : Int) : List Int := intRangeAux s (e + 1 - s).toNat

/-! ### Port scanner (src/port_scanner.py) -/

/-- The `common_ports` literal of `PortScanner.scan_common_ports`
(src/port_scanner.py lines 133-136). -/
def common_ports : List Int :=
  [21, 22, 23, 25, 53, 80, 110, 111, 135, 139, 143, 443, 993, 995,
   1723, 3306, 3389, 5900, 8080, 8443]

/-- Python's built-in `min` on a (nonempty) list of integers; the `[]` case
is irrelevant (Python raises there) and only makes the function total. -/
def pyMin : List Int → Int
  | [] => 0
  | x :: xs => xs.foldl min x

/-- Python's built-in `max` on a (nonempty) list of integers; the `[]` case
is irrelevant (Python raises there) and only makes the function total. -/
def pyMax : List Int → Int
  | [] => 0
  | x :: xs => xs.foldl max x

/-- The message of the `ValueError` raised by `scan_port_range`
(src/port_scanner.py line 86). -/
def invalidRangeMsg : String := "Invalid port range. Ports must be between 1-65535"

/-- Result collection of `scan_port_range` (src/port_scanner.py lines
106-116): results arrive in completion order `order`; a port is appended to
`open_ports` iff its probe reported open (`oracle`); finally
`self.open_ports.sort()` sorts ascending. -/
def openPorts (oracle : Int → Bool) (order : List Int) : List Int :=
  List.insertionSort (fun a b : Int => a ≤ b) (order.filter oracle)

/-- Model of `PortScanner.scan_port_range` (src/port_scanner.py lines 71-119).
`oracle` is the per-port open/closed outcome of `scan_port`; `order` is the
completion order of the submitted futures.  The validation at lines 85-86
runs first and consults neither the oracle nor the order: when it fires, no
probe task has been dispatched. -/
def scan_port_range (start_port end_port : Int) (oracle : Int → Bool)
    (order : List Int) : Except String (List Int) :=
  if start_port < 1 ∨ 65535 < end_port ∨ end_port < start_port then
    Except.error invalidRangeMsg
  else
    Except.ok (openPorts oracle order)

/-- Model of `PortScanner.scan_common_ports` (src/port_scanner.py lines 121-144):
delegates to `scan_port_range(min(common_ports), max(common_ports), ...)`.
Note that the source applies no filtering of the scanned range back to the
members of `common_ports`. -/
def scan_common_ports (oracle : Int → Bool) (order : List Int) :
    Except String (List Int) :=
  scan_port_range (pyMin common_ports) (pyMax common_ports) oracle order

/-- The `service_map` dict literal of `PortScanner.get_service_name`
(src/port_scanner.py lines 156-177). -/
def service_map : List (Int × String) :=
  [(21, "FTP"), (22, "SSH"), (23, "Telnet"), (25, "SMTP"), (53, "DNS"),
   (80, "HTTP"), (110, "POP3"), (111, "RPCBind"), (135, "MS RPC"),
   (139, "NetBIOS"), (143, "IMAP"), (443, "HTTPS"), (993, "IMAPS"),
   (995, "POP3S"), (1723, "PPTP"), (3306, "MySQL"), (3389, "RDP"),
   (5900, "VNC"), (8080, "HTTP-Alt"), (8443, "HTTPS-Alt")]

/-- Model of `PortScanner.get_service_name` (src/port_scanner.py lines 146-179):
`service_map.get(port, "Unknown")`. -/
def get_service_name (port : Int) : String :=
  (service_map.lookup port).getD "Unknown"

/-! ### Network scanner (src/network_scanner.py) -/

/-- An IPv4 address as its four dotted-quad octets.  The source manipulates
addresses as strings `"a.b.c.d"`; `rsplit('.', 1)[0]` extracts the first
three octets and the f-string re-appends a host octet, so the string
operations of lines 237-238 are exactly octet-level operations. -/
structure IPv4 where
  a : Nat
  b : Nat
  c : Nat
  d : Nat
deriving DecidableEq

/-- The 32-bit numeric interpretation of an address, i.e. the big-endian
value of `socket.inet_aton`'s four bytes.  For octets below 256,
lexicographic comparison of the packed byte string (the sort key at
src/network_scanner.py line 254) coincides with comparison of this value. -/
def ipNum (x : IPv4) : Nat := ((x.a * 256 + x.b) * 256 + x.c) * 256 + x.d

/-- The candidate list of a sweep (src/network_scanner.py lines 237-238 and
330-332): `base_ip = local_ip.rsplit('.', 1)[0]` followed by
`[f"{base_ip}.{i}" for i in range(1, 255)]` — the 254 addresses sharing the
local address's first three octets, host octet 1..254 ascending. -/
def ipList (localIp : IPv4) : List IPv4 :=
  (List.range' 1 254).map (fun i => IPv4.mk localIp.a localIp.b localIp.c i)

/-- A device record as built at src/network_scanner.py lines 208-213 (and
307-312, 341-346): the dict with keys `ip`, `mac`, `hostname`, `status`. -/
structure Device where
  ip : IPv4
  mac : String
  hostname : String
  status : String
deriving DecidableEq

/-- Outcome of one underlying `subprocess.run(["ping", ...])` call: either
the command completed with some exit code, or it failed in one of the ways
the source's `except Exception` absorbs (timeout, missing binary /
OS command failure, permission error). -/
inductive PingOutcome where
  | completed (returncode : Int)
  | timedOut
  | commandFailure
  | permissionDenied
deriving DecidableEq

/-- Model of `NetworkScanner._ping_host` (src/network_scanner.py lines 55-87): runs
the platform-appropriate ping and returns `result.returncode == 0`; the
whole body is wrapped in `try/except Exception: return False`, so every
failure outcome maps to `false` and nothing propagates to the caller.
`outcome` gives the result of the underlying command per address. -/
def ping_host (outcome : String → PingOutcome) (ip : String) : Bool :=
  match outcome ip with
  | PingOutcome.completed rc => rc == 0
  | PingOutcome.timedOut => false
  | PingOutcome.commandFailure => false
  | PingOutcome.permissionDenied => false

/-- Model of `NetworkScanner._get_hostname` (src/network_scanner.py lines 191-197):
returns the reverse-resolved name, or the string `"Unknown"` when
`socket.gethostbyaddr` raises.  `hostOracle` yields `none` exactly in the
raising case. -/
def get_hostname (hostOracle : IPv4 → Option String) (ip : IPv4) : String :=
  (hostOracle ip).getD "Unknown"

/-- Model of `NetworkScanner._scan_single_ip` (src/network_scanner.py lines 199-214):
if the liveness probe succeeds, build the device dict with
`'mac': mac or 'Unknown'` (where `_get_mac_address` returns `None` — never
the empty string — on any failure) and `'status': 'alive'`; otherwise
return `None`.  `pingO` is the liveness oracle, `macO` the hardware-address
lookup oracle. -/
def scan_single_ip (pingO : IPv4 → Bool) (macO hostO : IPv4 → Option String)
    (ip : IPv4) : Option Device :=
  if pingO ip then
    some { ip := ip, mac := (macO ip).getD "Unknown",
           hostname := get_hostname hostO ip, status := "alive" }
  else
    none

/-- The comparison relation of the device sort at src/network_scanner.py
line 254: `self.devices.sort(key=lambda x: socket.inet_aton(x['ip']))`,
i.e. ascending by the numeric interpretation of the address. -/
def devLe (x y : Device) : Prop := ipNum x.ip ≤ ipNum y.ip

instance : DecidableRel devLe :=
  fun x y => Nat.decLe (ipNum x.ip) (ipNum y.ip)

instance : IsTotal Device devLe :=
  ⟨fun x y => Nat.le_total (ipNum x.ip) (ipNum y.ip)⟩

instance : IsTrans Device devLe :=
  ⟨fun _ _ _ hxy hyz => Nat.le_trans hxy hyz⟩

/-- The final device sort (src/network_scanner.py lines 253-254, 315-316,
348-349). -/
def sortDevices (l : List Device) : List Device := List.insertionSort devLe l

/-- The non-Termux path of `NetworkScanner.scan_network`
(src/network_scanner.py lines 236-257): one `_scan_single_ip` task per
candidate, results collected in completion order `order`, `None` results
dropped, then sorted by numeric address. -/
def scan_network (pingO : IPv4 → Bool) (macO hostO : IPv4 → Option String)
    (order : List IPv4) : List Device :=
  sortDevices (order.filterMap (scan_single_ip pingO macO hostO))

/-- Model of `NetworkScanner._basic_ping_scan` (src/network_scanner.py lines
326-352): pings each candidate sequentially in enumeration order, builds
the same device dict as `_scan_single_ip` for responders, then sorts by
numeric address. -/
def basic_ping_scan (pingO : IPv4 → Bool) (macO hostO : IPv4 → Option String)
    (localIp : IPv4) : List Device :=
  sortDevices ((ipList localIp).filterMap (scan_single_ip pingO macO hostO))

/-- Model of `NetworkScanner._scan_network_termux` (src/network_scanner.py lines
259-324).  Its body reads `shutil.which("nmap")` at line 268, but
`network_scanner.py` never imports `shutil`; that first statement inside
the `try` therefore raises `NameError`, the `except Exception` handler at
line 321 catches it, and every call falls through to `_basic_ping_scan()`.
The nmap-parsing branch at lines 274-319 is unreachable. -/
def scan_network_termux (pingO : IPv4 → Bool) (macO hostO : IPv4 → Option String)
    (localIp : IPv4) : List Device :=
  basic_ping_scan pingO macO hostO localIp

/-- Model of `NetworkScanner.scan_network` with its Termux dispatch
(src/network_scanner.py lines 216-257). -/
def scan_network_full (isTermux : Bool) (pingO : IPv4 → Bool)
    (macO hostO : IPv4 → Option String) (localIp : IPv4)
    (order : List IPv4) : List Device :=
  if isTermux then
    scan_network_termux pingO macO hostO localIp
  else
    scan_network pingO macO hostO order

/-! ### Helper lemmas -/

theorem mem_intRangeAux (m s : Int) (n : Nat) :
    m ∈ intRangeAux s n ↔ s ≤ m ∧ m < s + n := by
  induction n generalizing s with
  | zero => simp [intRangeAux]
  | succ k ih =>
    simp only [intRangeAux, List.mem_cons, ih]
    constructor
    · rintro (rfl | ⟨h1, h2⟩) <;> [skip; skip] <;> push_cast <;> omega
    · rintro ⟨h1, h2⟩
      by_cases hm : m = s
      · exact Or.inl hm
      · right; push_cast at h2 ⊢; omega

theorem mem_intRange (m s e : Int) : m ∈ intRange s e ↔ s ≤ m ∧ m ≤ e := by
  rw [intRange, mem_intRangeAux]
  omega

theorem pairwise_lt_intRangeAux (s : Int) (n : Nat) :
    List.Pairwise (fun a b : Int => a < b) (intRangeAux s n) := by
  induction n generalizing s with
  | zero => simp [intRangeAux]
  | succ k ih =>
    simp only [intRangeAux, List.pairwise_cons]
    refine ⟨fun b hb => ?_, ih (s + 1)⟩
    rw [mem_intRangeAux] at hb
    omega

theorem pairwise_lt_intRange (s e : Int) :
    List.Pairwise (fun a b : Int => a < b) (intRange s e) :=
  pairwise_lt_intRangeAux s _

theorem nodup_intRange (s e : Int) : (intRange s e).Nodup :=
  (pairwise_lt_intRange s e).imp (fun h => ne_of_lt h)

theorem openPorts_subset_and_open (oracle : Int → Bool) (order : List Int)
    (p : Int) (hp : p ∈ openPorts oracle order) :
    p ∈ order ∧ oracle p = true := by
  rw [openPorts, List.mem_insertionSort, List.mem_filter] at hp
  exact hp

theorem openPorts_sorted_le (oracle : Int → Bool) (order : List Int) :
    List.Sorted (fun a b : Int => a ≤ b) (openPorts oracle order) :=
  List.sorted_insertionSort _ _

theorem openPorts_nodup (s e : Int) (oracle : Int → Bool) (order : List Int)
    (hperm : List.Perm order (intRange s e)) :
    (openPorts oracle order).Nodup := by
  have horder : order.Nodup := hperm.nodup_iff.mpr (nodup_intRange s e)
  have hfilter : (order.filter oracle).Nodup := horder.filter oracle
  exact (List.perm_insertionSort _ _).nodup_iff.mpr hfilter

theorem openPorts_sorted_lt (s e : Int) (oracle : Int → Bool) (order : List Int)
    (hperm : List.Perm order (intRange s e)) :
    List.Sorted (fun a b : Int => a < b) (openPorts oracle order) :=
  List.Sorted.lt_of_le (openPorts_sorted_le oracle order)
    (openPorts_nodup s e oracle order hperm)

theorem scan_port_range_ok (s e : Int) (oracle : Int → Bool) (order : List Int)
    (h1 : 1 ≤ s) (h2 : s ≤ e) (h3 : e ≤ 65535) :
    scan_port_range s e oracle order = Except.ok (openPorts oracle order) := by
  rw [scan_port_range, if_neg]
  omega

theorem scan_port_range_err (s e : Int) (oracle : Int → Bool) (order : List Int)
    (h : s < 1 ∨ 65535 < e ∨ e < s) :
    scan_port_range s e oracle order = Except.error invalidRangeMsg := by
  rw [scan_port_range, if_pos h]

theorem intRange_self (p : Int) : intRange p p = [p] := by
  rw [intRange]
  have h : (p + 1 - p).toNat = 1 := by omega
  rw [h]
  rfl

/-! ### Claim theorems for the port scanner -/

/-- Claim C2: for every pair with portLow > portHigh, portLow < 1 or
portHigh > 65535, `scan_port_range` raises the `ValueError` — and it does so
for every oracle and every completion order, i.e. before any probe task is
dispatched or consulted; for every pair with 1 <= low <= high <= 65535 it
instead returns normally. -/
theorem scan_port_range_validation (s e : Int) (oracle : Int → Bool)
    (order : List Int) :
    (scan_port_range s e oracle order = Except.error invalidRangeMsg ↔
      (e < s ∨ s < 1 ∨ 65535 < e)) ∧
    (1 ≤ s ∧ s ≤ e ∧ e ≤ 65535 →
      scan_port_range s e oracle order = Except.ok (openPorts oracle order)) := by
  constructor
  · constructor
    · intro h
      by_contra hc
      rw [scan_port_range, if_neg (by omega)] at h
      exact Except.noConfusion h
    · intro h
      exact scan_port_range_err s e oracle order (by omega)
  · intro ⟨h1, h2, h3⟩
    exact scan_port_range_ok s e oracle order h1 h2 h3

/-- Witness for C2 at concrete inputs: the range (7, 3) raises, the range
(1, 3) does not. -/
theorem scan_port_range_validation_witness :
    (scan_port_range 7 3 (fun _ => true) [] = Except.error invalidRangeMsg) ∧
    (scan_port_range 1 3 (fun _ => true) (intRange 1 3) =
      Except.ok (openPorts (fun _ => true) (intRange 1 3))) :=
  ⟨(scan_port_range_validation 7 3 (fun _ => true) []).1.mpr (by decide),
   (scan_port_range_validation 1 3 (fun _ => true) (intRange 1 3)).2 (by decide)⟩

/-- Claim C3: for every valid (low, high) pair, every per-port oracle and
every completion order, `scan_port_range` returns a list that is a subset of
the interval [low, high], strictly ascending and duplicate-free. -/
theorem scan_port_range_sorted_subset (s e : Int) (oracle : Int → Bool)
    (order : List Int) (h1 : 1 ≤ s) (h2 : s ≤ e) (h3 : e ≤ 65535)
    (hperm : List.Perm order (intRange s e)) :
    scan_port_range s e oracle order = Except.ok (openPorts oracle order) ∧
    (∀ p ∈ openPorts oracle order, s ≤ p ∧ p ≤ e) ∧
    List.Sorted (fun a b : Int => a < b) (openPorts oracle order) ∧
    (openPorts oracle order).Nodup := by
  refine ⟨scan_port_range_ok s e oracle order h1 h2 h3, ?_, ?_, ?_⟩
  · intro p hp
    have hmem := (openPorts_subset_and_open oracle order p hp).1
    exact (mem_intRange p s e).mp (hperm.mem_iff.mp hmem)
  · exact openPorts_sorted_lt s e oracle order hperm
  · exact openPorts_nodup s e oracle order hperm

/-- Witness for C3 at a concrete input: range (1, 5), ports 2 and 4 open,
completion order [3, 5, 1, 2, 4]. -/
theorem scan_port_range_sorted_subset_witness :
    scan_port_range 1 5 (fun p => p == 2 || p == 4) [3, 5, 1, 2, 4] =
      Except.ok (openPorts (fun p => p == 2 || p == 4) [3, 5, 1, 2, 4]) ∧
    (∀ p ∈ openPorts (fun p => p == 2 || p == 4) [3, 5, 1, 2, 4],
       (1 : Int) ≤ p ∧ p ≤ 5) ∧
    List.Sorted (fun a b : Int => a < b)
      (openPorts (fun p => p == 2 || p == 4) [3, 5, 1, 2, 4]) ∧
    (openPorts (fun p => p == 2 || p == 4) [3, 5, 1, 2, 4]).Nodup :=
  scan_port_range_sorted_subset 1 5 (fun p => p == 2 || p == 4) [3, 5, 1, 2, 4]
    (by decide) (by decide) (by decide) (by decide)

/-- Claim C8: for every port p in [1, 65535], every oracle and every
completion order, `scan_port_range p p` returns either the empty list or
the singleton [p]. -/
theorem scan_port_range_point (p : Int) (oracle : Int → Bool)
    (order : List Int) (h1 : 1 ≤ p) (h2 : p ≤ 65535)
    (hperm : List.Perm order (intRange p p)) :
    scan_port_range p p oracle order = Except.ok [] ∨
    scan_port_range p p oracle order = Except.ok [p] := by
  have hord : order = [p] := by
    rw [intRange_self] at hperm
    exact List.perm_singleton.mp hperm
  subst hord
  have hok := scan_port_range_ok p p oracle [p] h1 le_rfl h2
  by_cases h : oracle p
  · right
    rw [hok]
    simp [openPorts, List.filter, h, List.insertionSort]
  · left
    rw [hok]
    simp [openPorts, List.filter, h, List.insertionSort]

/-- Witness for C8 at a concrete input: port 80, open. -/
theorem scan_port_range_point_witness :
    scan_port_range 80 80 (fun _ => true) [80] = Except.ok [] ∨
    scan_port_range 80 80 (fun _ => true) [80] = Except.ok [80] :=
  scan_port_range_point 80 (fun _ => true) [80] (by decide) (by decide)
    (by rw [intRange_self])

theorem pyMin_common_ports : pyMin common_ports = 21 := by decide

theorem pyMax_common_ports : pyMax common_ports = 8443 := by decide

/-- Counterexample to claim C1 as stated: with every port closed except 24
(a port inside the scanned interval [21, 8443] but outside the twenty-port
common set) and the submission order as completion order, `scan_common_ports`
returns a list containing 24, which is not a member of the common set. -/
theorem scan_common_ports_counterexample :
    scan_common_ports (fun p => p == 24) (intRange 21 8443) =
      Except.ok (openPorts (fun p => p == 24) (intRange 21 8443)) ∧
    24 ∈ openPorts (fun p => p == 24) (intRange 21 8443) ∧
    24 ∉ common_ports := by
  refine ⟨?_, ?_, by decide⟩
  · rw [scan_common_ports, pyMin_common_ports, pyMax_common_ports]
    exact scan_port_range_ok 21 8443 _ _ (by decide) (by decide) (by decide)
  · rw [openPorts, List.mem_insertionSort, List.mem_filter]
    exact ⟨(mem_intRange 24 21 8443).mpr (by decide), by decide⟩

/-- Claim C1 (amended): `scan_common_ports` is an unfiltered range scan over
the interval bounded by the minimum (21) and maximum (8443) of the common
set: for every oracle and completion order it returns normally, and every
port in the returned list lies in that interval — but it need not be a
member of the twenty-port set itself. -/
theorem scan_common_ports_bounded (oracle : Int → Bool) (order : List Int)
    (hperm : List.Perm order (intRange (pyMin common_ports) (pyMax common_ports))) :
    scan_common_ports oracle order = Except.ok (openPorts oracle order) ∧
    ∀ p ∈ openPorts oracle order,
      pyMin common_ports ≤ p ∧ p ≤ pyMax common_ports := by
  rw [pyMin_common_ports, pyMax_common_ports] at hperm ⊢
  constructor
  · rw [scan_common_ports, pyMin_common_ports, pyMax_common_ports]
    exact scan_port_range_ok 21 8443 oracle order (by decide) (by decide) (by decide)
  · intro p hp
    have hmem := (openPorts_subset_and_open oracle order p hp).1
    exact (mem_intRange p 21 8443).mp (hperm.mem_iff.mp hmem)

/-- Witness for the amended C1 at a concrete input: every port open,
submission order as completion order; port 80 is reported and lies within
the interval bounds. -/
theorem scan_common_ports_bounded_witness :
    scan_common_ports (fun _ => true) (intRange 21 8443) =
      Except.ok (openPorts (fun _ => true) (intRange 21 8443)) ∧
    (pyMin common_ports ≤ 80 ∧ (80 : Int) ≤ pyMax common_ports) := by
  have hperm : List.Perm (intRange 21 8443)
      (intRange (pyMin common_ports) (pyMax common_ports)) := by
    rw [pyMin_common_ports, pyMax_common_ports]
  have h := scan_common_ports_bounded (fun _ => true) (intRange 21 8443) hperm
  refine ⟨h.1, h.2 80 ?_⟩
  rw [openPorts, List.mem_insertionSort, List.mem_filter]
  exact ⟨(mem_intRange 80 21 8443).mpr (by decide), rfl⟩

theorem lookup_eq_none_of_keys {l : List (Int × String)} {k : Int}
    (h : ∀ pr ∈ l, pr.1 ≠ k) : List.lookup k l = none := by
  induction l with
  | nil => rfl
  | cons x xs ih =>
    obtain ⟨a, b⟩ := x
    have hx : a ≠ k := h (a, b) (List.mem_cons_self (a, b) xs)
    have hbeq : (k == a) = false := beq_eq_false_iff_ne.mpr (fun he => hx he.symm)
    simp only [List.lookup, hbeq]
    exact ih (fun pr hpr => h pr (List.mem_cons_of_mem (a, b) hpr))

theorem service_map_keys : service_map.map Prod.fst = common_ports := by decide

theorem get_service_name_eq_unknown {p : Int} (hp : p ∉ common_ports) :
    get_service_name p = "Unknown" := by
  rw [get_service_name, lookup_eq_none_of_keys]
  · rfl
  · intro pr hpr hcontra
    apply hp
    rw [← service_map_keys]
    exact hcontra ▸ List.mem_map_of_mem Prod.fst hpr

/-- Claim C10: the service-label lookup is a total function with default:
every port of the twenty-port common set maps to its fixed label, and every
other integer port maps to exactly "Unknown".  As a total Lean function of
the translated code, it cannot raise. -/
theorem get_service_name_total (p : Int) :
    (p ∉ common_ports → get_service_name p = "Unknown") ∧
    (get_service_name 21 = "FTP" ∧ get_service_name 22 = "SSH" ∧
     get_service_name 23 = "Telnet" ∧ get_service_name 25 = "SMTP" ∧
     get_service_name 53 = "DNS" ∧ get_service_name 80 = "HTTP" ∧
     get_service_name 110 = "POP3" ∧ get_service_name 111 = "RPCBind" ∧
     get_service_name 135 = "MS RPC" ∧ get_service_name 139 = "NetBIOS" ∧
     get_service_name 143 = "IMAP" ∧ get_service_name 443 = "HTTPS" ∧
     get_service_name 993 = "IMAPS" ∧ get_service_name 995 = "POP3S" ∧
     get_service_name 1723 = "PPTP" ∧ get_service_name 3306 = "MySQL" ∧
     get_service_name 3389 = "RDP" ∧ get_service_name 5900 = "VNC" ∧
     get_service_name 8080 = "HTTP-Alt" ∧ get_service_name 8443 = "HTTPS-Alt") :=
  ⟨fun hp => get_service_name_eq_unknown hp, by decide⟩

/-- Witness for C10 at concrete ports: 1234 is outside the common set and
maps to "Unknown"; 22 maps to "SSH". -/
theorem get_service_name_total_witness :
    get_service_name 1234 = "Unknown" ∧ get_service_name 22 = "SSH" :=
  ⟨(get_service_name_total 1234).1 (by decide),
   (get_service_name_total 22).2.2.1⟩

theorem mem_scan_single_ip {pingO : IPv4 → Bool} {macO hostO : IPv4 → Option String}
    {ip : IPv4} {dev : Device} :
    scan_single_ip pingO macO hostO ip = some dev ↔
      pingO ip = true ∧
      dev = { ip := ip, mac := (macO ip).getD "Unknown",
              hostname := get_hostname hostO ip, status := "alive" } := by
  by_cases h : pingO ip <;> simp [scan_single_ip, h, eq_comm]

theorem pairwise_ipNum_ne_ipList (localIp : IPv4) :
    List.Pairwise (fun x y : IPv4 => ipNum x ≠ ipNum y) (ipList localIp) := by
  rw [ipList, List.pairwise_map]
  refine (List.pairwise_lt_range' 1 254).imp ?_
  intro i j hij
  simp only [ipNum]
  omega

theorem pairwise_ne_devices (pingO : IPv4 → Bool) (macO hostO : IPv4 → Option String)
    (localIp : IPv4) (order : List IPv4)
    (hperm : List.Perm order (ipList localIp)) :
    List.Pairwise (fun x y : Device => ipNum x.ip ≠ ipNum y.ip)
      (order.filterMap (scan_single_ip pingO macO hostO)) := by
  have hne_order : List.Pairwise (fun x y : IPv4 => ipNum x ≠ ipNum y) order :=
    (hperm.pairwise_iff (fun h => Ne.symm h)).mpr (pairwise_ipNum_ne_ipList localIp)
  apply List.pairwise_filterMap.mpr
  refine hne_order.imp ?_
  intro u v huv x hx y hy
  obtain ⟨-, hxdev⟩ := mem_scan_single_ip.mp (Option.mem_def.mp hx)
  obtain ⟨-, hydev⟩ := mem_scan_single_ip.mp (Option.mem_def.mp hy)
  rw [hxdev, hydev]
  exact huv

theorem sortDevices_sorted_and_nodup (pingO : IPv4 → Bool)
    (macO hostO : IPv4 → Option String) (localIp : IPv4) (order : List IPv4)
    (hperm : List.Perm order (ipList localIp)) :
    List.Sorted (fun x y : Device => ipNum x.ip < ipNum y.ip)
      (sortDevices (order.filterMap (scan_single_ip pingO macO hostO))) ∧
    ((sortDevices (order.filterMap (scan_single_ip pingO macO hostO))).map
      (fun d => d.ip)).Nodup := by
  have hraw := pairwise_ne_devices pingO macO hostO localIp order hperm
  have hperm_sort :
      List.Perm (sortDevices (order.filterMap (scan_single_ip pingO macO hostO)))
        (order.filterMap (scan_single_ip pingO macO hostO)) :=
    List.perm_insertionSort devLe _
  have hne_sorted : List.Pairwise (fun x y : Device => ipNum x.ip ≠ ipNum y.ip)
      (sortDevices (order.filterMap (scan_single_ip pingO macO hostO))) :=
    (hperm_sort.pairwise_iff (fun h => Ne.symm h)).mpr hraw
  have hle : List.Pairwise devLe
      (sortDevices (order.filterMap (scan_single_ip pingO macO hostO))) :=
    List.sorted_insertionSort devLe _
  constructor
  · exact (hle.and hne_sorted).imp (fun h => lt_of_le_of_ne h.1 h.2)
  · refine List.pairwise_map.mpr (hne_sorted.imp ?_)
    intro u v huv heq
    exact huv (heq ▸ rfl)

theorem mem_sortDevices_of_alive (pingO : IPv4 → Bool)
    (macO hostO : IPv4 → Option String) (order : List IPv4) (ip : IPv4)
    (hip : ip ∈ order) (halive : pingO ip = true) :
    ({ ip := ip, mac := (macO ip).getD "Unknown",
       hostname := get_hostname hostO ip, status := "alive" } : Device) ∈
      sortDevices (order.filterMap (scan_single_ip pingO macO hostO)) := by
  rw [sortDevices, List.mem_insertionSort]
  exact List.mem_filterMap.mpr ⟨ip, hip, mem_scan_single_ip.mpr ⟨halive, rfl⟩⟩

theorem mem_sortDevices_elim {pingO : IPv4 → Bool}
    {macO hostO : IPv4 → Option String} {order : List IPv4} {dev : Device}
    (hdev : dev ∈ sortDevices (order.filterMap (scan_single_ip pingO macO hostO))) :
    dev.status = "alive" ∧ pingO dev.ip = true := by
  rw [sortDevices, List.mem_insertionSort] at hdev
  obtain ⟨a, -, hfa⟩ := List.mem_filterMap.mp hdev
  obtain ⟨hping, hdev_eq⟩ := mem_scan_single_ip.mp hfa
  subst hdev_eq
  exact ⟨rfl, hping⟩

/-! ### Claim theorems for the network scanner -/

/-- Claim C4: for every liveness assignment, every enrichment oracle and
every completion order, the device list of a sweep is sorted strictly
ascending by the numeric interpretation of the address and contains no
duplicate addresses; this holds on both the standard and the Termux code
path. -/
theorem scan_network_sorted_nodup (isTermux : Bool) (pingO : IPv4 → Bool)
    (macO hostO : IPv4 → Option String) (localIp : IPv4) (order : List IPv4)
    (hperm : List.Perm order (ipList localIp)) :
    List.Sorted (fun x y : Device => ipNum x.ip < ipNum y.ip)
      (scan_network_full isTermux pingO macO hostO localIp order) ∧
    ((scan_network_full isTermux pingO macO hostO localIp order).map
      (fun d => d.ip)).Nodup := by
  cases isTermux with
  | true =>
    rw [scan_network_full, if_pos rfl, scan_network_termux, basic_ping_scan]
    exact sortDevices_sorted_and_nodup pingO macO hostO localIp (ipList localIp)
      (List.Perm.refl _)
  | false =>
    rw [scan_network_full, if_neg Bool.false_ne_true, scan_network]
    exact sortDevices_sorted_and_nodup pingO macO hostO localIp order hperm

/-- Witness for C4 at a concrete input: local address 192.168.1.1, all
candidates alive, submission order as completion order, standard path. -/
theorem scan_network_sorted_nodup_witness :
    List.Sorted (fun x y : Device => ipNum x.ip < ipNum y.ip)
      (scan_network_full false (fun _ => true) (fun _ => none) (fun _ => none)
        (IPv4.mk 192 168 1 1) (ipList (IPv4.mk 192 168 1 1))) ∧
    ((scan_network_full false (fun _ => true) (fun _ => none) (fun _ => none)
        (IPv4.mk 192 168 1 1) (ipList (IPv4.mk 192 168 1 1))).map
      (fun d => d.ip)).Nodup :=
  scan_network_sorted_nodup false (fun _ => true) (fun _ => none) (fun _ => none)
    (IPv4.mk 192 168 1 1) (ipList (IPv4.mk 192 168 1 1)) (List.Perm.refl _)

/-- Claim C5: the address space enumerator produces exactly 254 candidate
addresses sharing the local address's first three octets, host octet
running over 1..254 in ascending order.  It is a plain Lean function of its
input, hence pure and deterministic. -/
theorem ipList_enumerator_spec (localIp : IPv4) :
    (ipList localIp).length = 254 ∧
    (ipList localIp).map (fun x => x.d) = List.range' 1 254 ∧
    (∀ x ∈ ipList localIp,
      x.a = localIp.a ∧ x.b = localIp.b ∧ x.c = localIp.c ∧
      1 ≤ x.d ∧ x.d ≤ 254) ∧
    List.Sorted (fun x y : IPv4 => x.d < y.d) (ipList localIp) := by
  refine ⟨?_, ?_, ?_, ?_⟩
  · simp [ipList]
  · simp [ipList, List.map_map]
    exact List.map_id _
  · intro x hx
    rw [ipList, List.mem_map] at hx
    obtain ⟨i, hi, rfl⟩ := hx
    rw [List.mem_range'_1] at hi
    refine ⟨rfl, rfl, rfl, hi.1, ?_⟩
    show i ≤ 254
    omega
  · rw [ipList]
    exact List.pairwise_map.mpr ((List.pairwise_lt_range' 1 254).imp (fun h => h))

/-- Witness for C5 at a concrete input: local address 10.0.0.7; the
candidate 10.0.0.3 is among the 254 produced addresses and satisfies the
octet constraints. -/
theorem ipList_enumerator_spec_witness :
    (ipList (IPv4.mk 10 0 0 7)).length = 254 ∧
    ((IPv4.mk 10 0 0 3).a = 10 ∧ (IPv4.mk 10 0 0 3).b = 0 ∧
     (IPv4.mk 10 0 0 3).c = 0 ∧ 1 ≤ (IPv4.mk 10 0 0 3).d ∧
     (IPv4.mk 10 0 0 3).d ≤ 254) :=
  ⟨(ipList_enumerator_spec (IPv4.mk 10 0 0 7)).1,
   (ipList_enumerator_spec (IPv4.mk 10 0 0 7)).2.2.1 (IPv4.mk 10 0 0 3)
     (by decide)⟩

/-- Claim C6: the liveness probe is total and never surfaces an error: for
every address and every outcome of the underlying reachability command it
returns a boolean, with `false` for every failure mode (nonzero exit code,
timeout, command failure, permission error) — `true` exactly when the
command completed with exit code 0. -/
theorem ping_host_never_raises (outcome : String → PingOutcome) (ip : String) :
    (outcome ip ≠ PingOutcome.completed 0 → ping_host outcome ip = false) ∧
    (ping_host outcome ip = true ↔ outcome ip = PingOutcome.completed 0) := by
  constructor
  · intro h
    rw [ping_host]
    cases houtcome : outcome ip with
    | completed rc =>
      have : rc ≠ 0 := fun hrc => h (by rw [houtcome, hrc])
      simpa using this
    | timedOut => rfl
    | commandFailure => rfl
    | permissionDenied => rfl
  · rw [ping_host]
    cases houtcome : outcome ip with
    | completed rc => simp
    | timedOut => simp
    | commandFailure => simp
    | permissionDenied => simp

/-- Witness for C6 at a concrete input: a timed-out probe of 192.168.1.77
yields false. -/
theorem ping_host_never_raises_witness :
    ping_host (fun _ => PingOutcome.timedOut) "192.168.1.77" = false :=
  (ping_host_never_raises (fun _ => PingOutcome.timedOut) "192.168.1.77").1
    (by decide)

/-- Claim C7: every candidate that passes the liveness probe appears in the
sweep's output; when the hardware-address lookup fails (`none`) its device
carries the placeholder "Unknown" as hardware address, and when the
hostname lookup fails its device carries "Unknown" as hostname — neither
failure excludes the device.  This holds on both the standard and the
Termux code path. -/
theorem scan_network_unknown_placeholders (isTermux : Bool) (pingO : IPv4 → Bool)
    (macO hostO : IPv4 → Option String) (localIp : IPv4) (order : List IPv4)
    (hperm : List.Perm order (ipList localIp)) (ip : IPv4)
    (hip : ip ∈ ipList localIp) (halive : pingO ip = true) :
    ∃ dev ∈ scan_network_full isTermux pingO macO hostO localIp order,
      dev.ip = ip ∧
      (macO ip = none → dev.mac = "Unknown") ∧
      (hostO ip = none → dev.hostname = "Unknown") := by
  refine ⟨{ ip := ip, mac := (macO ip).getD "Unknown",
            hostname := get_hostname hostO ip, status := "alive" }, ?_, rfl,
          fun h => by rw [h]; rfl, fun h => by rw [get_hostname, h]; rfl⟩
  cases isTermux with
  | true =>
    rw [scan_network_full, if_pos rfl, scan_network_termux, basic_ping_scan]
    exact mem_sortDevices_of_alive pingO macO hostO (ipList localIp) ip hip halive
  | false =>
    rw [scan_network_full, if_neg Bool.false_ne_true, scan_network]
    exact mem_sortDevices_of_alive pingO macO hostO order ip
      (hperm.mem_iff.mpr hip) halive

/-- Witness for C7 at a concrete input: local address 192.168.1.1, host
192.168.1.9 alive, both lookups failing. -/
theorem scan_network_unknown_placeholders_witness :
    ∃ dev ∈ scan_network_full false (fun x => x.d == 9) (fun _ => none)
        (fun _ => none) (IPv4.mk 192 168 1 1) (ipList (IPv4.mk 192 168 1 1)),
      dev.ip = IPv4.mk 192 168 1 9 ∧
      ((fun _ : IPv4 => (none : Option String)) (IPv4.mk 192 168 1 9) = none →
        dev.mac = "Unknown") ∧
      ((fun _ : IPv4 => (none : Option String)) (IPv4.mk 192 168 1 9) = none →
        dev.hostname = "Unknown") :=
  scan_network_unknown_placeholders false (fun x => x.d == 9) (fun _ => none)
    (fun _ => none) (IPv4.mk 192 168 1 1) (ipList (IPv4.mk 192 168 1 1))
    (List.Perm.refl _) (IPv4.mk 192 168 1 9) (by decide) (by decide)

/-- Claim C9: every device of a sweep has status exactly "alive" and was
constructed only after a positive liveness probe, and every entry of the
open-port list is a port whose probe reported open: a negative probe leaves
no entry at all, on both scanner paths and in the port scanner. -/
theorem alive_entries_only (isTermux : Bool) (pingO : IPv4 → Bool)
    (macO hostO : IPv4 → Option String) (localIp : IPv4) (order : List IPv4)
    (oracle : Int → Bool) (porder : List Int) :
    (∀ dev ∈ scan_network_full isTermux pingO macO hostO localIp order,
      dev.status = "alive" ∧ pingO dev.ip = true) ∧
    (∀ p ∈ openPorts oracle porder, oracle p = true) := by
  constructor
  · intro dev hdev
    cases isTermux with
    | true =>
      rw [scan_network_full, if_pos rfl, scan_network_termux,
        basic_ping_scan] at hdev
      exact mem_sortDevices_elim hdev
    | false =>
      rw [scan_network_full, if_neg Bool.false_ne_true, scan_network] at hdev
      exact mem_sortDevices_elim hdev
  · intro p hp
    exact (openPorts_subset_and_open oracle porder p hp).2

/-- Witness for C9 at concrete inputs: a one-candidate sweep whose single
device is alive, and a port list containing only the open port 22. -/
theorem alive_entries_only_witness :
    (({ ip := IPv4.mk 192 168 1 1, mac := "Unknown", hostname := "Unknown",
        status := "alive" } : Device).status = "alive" ∧
      (fun x : IPv4 => x.d == 1)
        ({ ip := IPv4.mk 192 168 1 1, mac := "Unknown", hostname := "Unknown",
           status := "alive" } : Device).ip = true) ∧
    (fun p : Int => p == 22) 22 = true :=
  ⟨(alive_entries_only false (fun x => x.d == 1) (fun _ => none) (fun _ => none)
      (IPv4.mk 192 168 1 1) [IPv4.mk 192 168 1 1] (fun p => p == 22) [22]).1
      { ip := IPv4.mk 192 168 1 1, mac := "Unknown", hostname := "Unknown",
        status := "alive" } (by decide),
   (alive_entries_only false (fun x => x.d == 1) (fun _ => none) (fun _ => none)
      (IPv4.mk 192 168 1 1) [IPv4.mk 192 168 1 1] (fun p => p == 22) [22]).2
      22 (by decide)⟩
